import Mathlib

/-!
Verification development for the Relate15 backend matchmaking queue.

The data model and operations below are a shallow embedding of
src/models/Queue.ts (QueueSchema) and src/controllers/queueController.ts
(bookCall, getCurrentMatch, skipAppointment, confirmAppointment,
resetMatches, confirmDate, updateConfirmedDate).  MongoDB documents are
records, collections are lists in insertion order, and each controller
operation is a function from the store to a result together with the
store after the transaction commits.  The MongoDB query primitives used
by the controller (findOne, findOneAndUpdate with an ascending createdAt
sort, deleteOne, deleteMany, findByIdAndUpdate with an addToSet or set
update) are modelled by the list combinators defined here.
-/

namespace Relate15

/-- A Queue document.  Fields user, status, matchedWith and createdAt follow
QueueSchema in src/models/Queue.ts; confirmedDate, appointment and
appointmentStatus are the extra paths the controller writes through
document set calls (confirmDate, updateConfirmedDate, bookAppointment,
skipAppointment).  User ids are numbers, date values are the integer
returned by getTime on a Date. -/
structure QueueEntry where
  user : Nat
  status : String
  matchedWith : Option Nat
  confirmedDate : Option Int
  appointment : Option Int
  appointmentStatus : Option String
  createdAt : Nat
deriving Repr, DecidableEq

/-- A User document, restricted to the fields the queue controller touches:
the matches array of prior partner ids and the matchCount map from partner
id to a count. -/
structure UserRec where
  id : Nat
  matchesArr : List Nat
  matchCount : List (Nat × Nat)
deriving Repr, DecidableEq

/-- The persistent store: the Queue collection and the User collection,
each in insertion order. -/
structure Store where
  queue : List QueueEntry
  users : List UserRec
deriving Repr, DecidableEq

/-- User.findById. -/
def findUser (uid : Nat) (us : List UserRec) : Option UserRec :=
  us.find? (fun u => u.id == uid)

/-- Model of findOneAndUpdate without a sort: rewrite the first document
matching the filter. -/
def updateFirst {α : Type} (p : α → Bool) (f : α → α) : List α → List α
  | [] => []
  | e :: rest => if p e then f e :: rest else e :: updateFirst p f rest

/-- Model of deleteOne: remove the first document matching the filter. -/
def deleteFirst {α : Type} (p : α → Bool) : List α → List α
  | [] => []
  | e :: rest => if p e then rest else e :: deleteFirst p rest

/-- The document selected by findOneAndUpdate with sort by key ascending:
the index and value of the lowest-key element satisfying the filter, ties
resolved toward the front of the list (insertion order). -/
def oldestBy {α : Type} (p : α → Bool) (key : α → Nat) : List α → Option (Nat × α)
  | [] => none
  | e :: rest =>
    match oldestBy p key rest with
    | none => if p e then some (0, e) else none
    | some (j, b) =>
      if p e = true ∧ key e ≤ key b then some (0, e) else some (j + 1, b)

/-- Model of findOneAndUpdate with an ascending sort and new true: claim the
oldest matching document, returning the updated document and collection. -/
def claimOldest {α : Type} (p : α → Bool) (key : α → Nat) (f : α → α)
    (l : List α) : Option α × List α :=
  match oldestBy p key l with
  | none => (none, l)
  | some (j, b) => (some (f b), l.set j (f b))

/-- The statuses the bookCall pre-check treats as an active booking:
the filter status in [waiting, matched] (queueController.ts line 73). -/
def isActiveStatus (s : String) : Bool := s == "waiting" || s == "matched"

/-- The bookCall pre-check filter: user equals userId and status in
[waiting, matched]. -/
def activePred (uid : Nat) (e : QueueEntry) : Bool :=
  e.user == uid && isActiveStatus e.status

/-- The filter user equals userId, status equals matched, used by
getCurrentMatch, skipAppointment, confirmAppointment, confirmDate and
updateConfirmedDate. -/
def matchedPred (uid : Nat) (e : QueueEntry) : Bool :=
  e.user == uid && e.status == "matched"

/-- The matchmaking candidate filter of bookCall: status waiting and the
owning user not in [userId, ...currentUser.matches]. -/
def eligibleWaiting (uid : Nat) (hist : List Nat) (e : QueueEntry) : Bool :=
  e.status == "waiting" && !(e.user == uid || hist.contains e.user)

/-- The update applied by the winning claim: status matched, matchedWith
the requester. -/
def matchedFlip (uid : Nat) (e : QueueEntry) : QueueEntry :=
  { e with status := "matched", matchedWith := some uid }

/-- A freshly created Queue document (timestamps fills createdAt). -/
def mkEntry (uid : Nat) (st : String) (mw : Option Nat) (now : Nat) : QueueEntry :=
  { user := uid, status := st, matchedWith := mw, confirmedDate := none,
    appointment := none, appointmentStatus := none, createdAt := now }

/-- MAX_RETRIES in queueController.ts. -/
def MAX_RETRIES : Nat := 3

/-- The bounded retry loop of bookCall: attempt the atomic claim, and treat
a claimed entry whose owning user document is missing (populate yields
null) as no match, retrying with the flip already applied to the
collection, exactly as the source loop does. -/
def tryClaim (fuel : Nat) (uid : Nat) (hist : List Nat) (us : List UserRec)
    (q : List QueueEntry) : Option QueueEntry × List QueueEntry :=
  match fuel with
  | 0 => (none, q)
  | fuel' + 1 =>
    match claimOldest (eligibleWaiting uid hist) QueueEntry.createdAt
        (matchedFlip uid) q with
    | (some e, q2) =>
      match findUser e.user us with
      | some _ => (some e, q2)
      | none => tryClaim fuel' uid hist us q2
    | (none, q2) => tryClaim fuel' uid hist us q2

/-- The addToSet update on the matches array of the user with the given id. -/
def addMatchFun (uid pid : Nat) (u : UserRec) : UserRec :=
  if u.id == uid then
    { u with matchesArr :=
        if u.matchesArr.contains pid then u.matchesArr else u.matchesArr ++ [pid] }
  else u

/-- User.findByIdAndUpdate with addToSet matches. -/
def addMatch (uid pid : Nat) (us : List UserRec) : List UserRec :=
  us.map (addMatchFun uid pid)

/-- Result of bookCall, as serialized by the route handler. -/
inductive BookResult where
  | alreadyActive : BookResult
  | userNotFound : BookResult
  | matchedRes : Nat → BookResult
  | waitingRes : BookResult
deriving Repr, DecidableEq

/-- bookCall from src/controllers/queueController.ts: pre-check for an
active entry, then inside one transaction load the requester, run the
bounded claim loop, and either record the match on both sides (addToSet on
both matches arrays, then create a matched entry for the requester and a
second one for the partner) or enqueue the requester as waiting. -/
def bookCall (uid now : Nat) (s : Store) : BookResult × Store :=
  match s.queue.find? (activePred uid) with
  | some _ => (.alreadyActive, s)
  | none =>
    match findUser uid s.users with
    | none => (.userNotFound, s)
    | some cu =>
      match tryClaim MAX_RETRIES uid cu.matchesArr s.users s.queue with
      | (some e, q2) =>
        let us1 := addMatch uid e.user s.users
        let us2 := addMatch e.user uid us1
        let q3 := q2 ++ [mkEntry uid "matched" (some e.user) now]
        let q4 := q3 ++ [mkEntry e.user "matched" (some uid) now]
        (.matchedRes e.user, { queue := q4, users := us2 })
      | (none, q2) =>
        (.waitingRes,
         { queue := q2 ++ [mkEntry uid "waiting" none now], users := s.users })

/-- Result of getCurrentMatch: the populated partner, the populated match
history list, or a 404. -/
inductive MatchResult where
  | partnerRes : Nat → MatchResult
  | historyRes : List Nat → MatchResult
  | notFoundRes : MatchResult
deriving Repr, DecidableEq

/-- The fallback of getCurrentMatch: the match history of the user when it
is non-empty, otherwise a 404. -/
def historyFallback (uid : Nat) (s : Store) : MatchResult :=
  match findUser uid s.users with
  | some u => if u.matchesArr.length > 0 then .historyRes u.matchesArr else .notFoundRes
  | none => .notFoundRes

/-- getCurrentMatch from src/controllers/queueController.ts: find the entry
with status matched, return its populated partner when the partner document
exists, otherwise fall back to the match history. -/
def getCurrentMatch (uid : Nat) (s : Store) : MatchResult :=
  match s.queue.find? (matchedPred uid) with
  | some e =>
    match e.matchedWith with
    | some p =>
      match findUser p s.users with
      | some _ => .partnerRes p
      | none => historyFallback uid s
    | none => historyFallback uid s
  | none => historyFallback uid s

/-- The document set of a proposed date: confirmedDate written on the
callers entry. -/
def setProposed (d : Int) (e2 : QueueEntry) : QueueEntry :=
  { e2 with confirmedDate := some d }

/-- The document set applied on convergence: appointment written and status
moved to booked. -/
def setBooked (d : Int) (e2 : QueueEntry) : QueueEntry :=
  { e2 with appointment := some d, status := "booked" }

/-- The partner reset applied by skipAppointment: status idle, matchedWith
and appointmentStatus cleared. -/
def setSkipIdle (e2 : QueueEntry) : QueueEntry :=
  { e2 with status := "idle", matchedWith := none, appointmentStatus := none }

/-- Result of skipAppointment and of confirmAppointment. -/
inductive NegotiationResult where
  | noActiveMatch : NegotiationResult
  | idleRes : NegotiationResult
deriving Repr, DecidableEq

/-- skipAppointment from src/controllers/queueController.ts: find the
callers matched entry, delete it, and rewrite the partners matched entry to
status idle with matchedWith and appointmentStatus cleared. -/
def skipAppointment (uid : Nat) (s : Store) : NegotiationResult × Store :=
  match s.queue.find? (matchedPred uid) with
  | none => (.noActiveMatch, s)
  | some e =>
    match e.matchedWith with
    | none => (.noActiveMatch, s)
    | some b =>
      let q1 := deleteFirst (matchedPred uid) s.queue
      let q2 := updateFirst (matchedPred b) setSkipIdle q1
      (.idleRes, { s with queue := q2 })

/-- confirmAppointment from src/controllers/queueController.ts: find the
callers matched entry and delete the matched entries of both members
(deleteMany on user in [userId, matchedUserId] with status matched).  The
notification document it creates for the partner lives outside the queue
and user collections and is not part of this store model. -/
def confirmAppointment (uid : Nat) (s : Store) : NegotiationResult × Store :=
  match s.queue.find? (matchedPred uid) with
  | none => (.noActiveMatch, s)
  | some e =>
    match e.matchedWith with
    | none => (.noActiveMatch, s)
    | some b =>
      let q1 := s.queue.filter
        (fun e2 => !((e2.user == uid || e2.user == b) && e2.status == "matched"))
      (.idleRes, { s with queue := q1 })

/-- The status enum of QueueSchema in src/models/Queue.ts. -/
def queueStatusEnum : List String := ["waiting", "matched"]

/-- The mongoose enum validator on the status path, run on every
document-level save. -/
def validQueueStatus (st : String) : Bool := queueStatusEnum.contains st

/-- The mongoose document-level save of an updated entry inside the
transaction: save runs the validators, and on the status path that is the
enum validator of QueueSchema.  A save whose document fails validation
throws, which aborts the whole transaction with no writes persisted. -/
def saveValidates (e : QueueEntry) : Bool := validQueueStatus e.status

/-- Result of confirmDate and of updateConfirmedDate: the booked
appointment, a matched state carrying the proposed date values seen so far,
or the internal error surfaced when a save throws a ValidationError and the
transaction aborts (the catch block passes the error to next, a 500). -/
inductive DateResult where
  | noActiveMatch : DateResult
  | bookedRes : Int → DateResult
  | awaitingBoth : Int → Int → DateResult
  | awaitingMine : Int → DateResult
  | internalError : DateResult
deriving Repr, DecidableEq

/-- confirmDate from src/controllers/queueController.ts: save the proposed
date on the callers matched entry, read the partners matched entry, and on
date-time equality of the two proposals set appointment and status booked
on both documents and save them.  Every document-level save runs the
QueueSchema validators: the first save keeps status matched and passes,
but the convergence saves carry status booked, which the enum
[waiting, matched] rejects, so the save throws, the transaction aborts
with no writes persisted, and the endpoint surfaces an internal error.
The embedding keeps confirmedDate and appointment as persistable document
paths; under mongoose strict mode these non-schema paths are stripped from
writes, so in the running program the partner proposal would never even be
visible and the convergence branch would be unreachable — under either
reading no booked entry is ever persisted and no booked state returned. -/
def confirmDate (uid : Nat) (d : Int) (s : Store) : DateResult × Store :=
  match s.queue.find? (matchedPred uid) with
  | none => (.noActiveMatch, s)
  | some e =>
    match e.matchedWith with
    | none => (.noActiveMatch, s)
    | some b =>
      if saveValidates (setProposed d e) then
        let q1 := updateFirst (matchedPred uid) (setProposed d) s.queue
        match q1.find? (matchedPred b) with
        | some me =>
          match me.confirmedDate with
          | some t =>
            if t == d then
              if saveValidates (setBooked d (setProposed d e)) then
                if saveValidates (setBooked d me) then
                  let q2 := updateFirst (matchedPred uid) (setBooked d) q1
                  let q3 := updateFirst (matchedPred b) (setBooked d) q2
                  (.bookedRes d, { s with queue := q3 })
                else (.internalError, s)
              else (.internalError, s)
            else (.awaitingBoth d t, { s with queue := q1 })
          | none => (.awaitingMine d, { s with queue := q1 })
        | none => (.awaitingMine d, { s with queue := q1 })
      else (.internalError, s)

/-- updateConfirmedDate from src/controllers/queueController.ts.  Its
transaction body coincides with confirmDate except for response message
strings, so the store effect is embedded by the same steps, including the
enum validation run by each document-level save (whose failure on the
status booked writes aborts the transaction). -/
def updateConfirmedDate (uid : Nat) (d : Int) (s : Store) : DateResult × Store :=
  match s.queue.find? (matchedPred uid) with
  | none => (.noActiveMatch, s)
  | some e =>
    match e.matchedWith with
    | none => (.noActiveMatch, s)
    | some b =>
      if saveValidates (setProposed d e) then
        let q1 := updateFirst (matchedPred uid) (setProposed d) s.queue
        match q1.find? (matchedPred b) with
        | some me =>
          match me.confirmedDate with
          | some t =>
            if t == d then
              if saveValidates (setBooked d (setProposed d e)) then
                if saveValidates (setBooked d me) then
                  let q2 := updateFirst (matchedPred uid) (setBooked d) q1
                  let q3 := updateFirst (matchedPred b) (setBooked d) q2
                  (.bookedRes d, { s with queue := q3 })
                else (.internalError, s)
              else (.internalError, s)
            else (.awaitingBoth d t, { s with queue := q1 })
          | none => (.awaitingMine d, { s with queue := q1 })
        | none => (.awaitingMine d, { s with queue := q1 })
      else (.internalError, s)

/-- The set-to-empty update of resetMatches on the user with the given id. -/
def resetFun (uid : Nat) (u : UserRec) : UserRec :=
  if u.id == uid then { u with matchesArr := [], matchCount := [] } else u

/-- resetMatches from src/controllers/queueController.ts:
User.findByIdAndUpdate with a set of matches to the empty array and
matchCount to the empty map; the queue collection is not touched. -/
def resetMatches (uid : Nat) (s : Store) : Store :=
  { s with users := s.users.map (resetFun uid) }

/-- Reads matchCount for a partner id, defaulting to zero as the controller
does with get or zero. -/
def matchCountFor (pid : Nat) (m : List (Nat × Nat)) : Nat :=
  ((m.find? (fun kv => kv.1 == pid)).map (fun kv => kv.2)).getD 0

/-! ### Concrete stores used to evaluate the operations -/

/-- User 2 has been waiting since time 0; users 1 and 2 exist with empty
match history. -/
def storeWaiting2 : Store :=
  { queue := [{ user := 2, status := "waiting", matchedWith := none,
                confirmedDate := none, appointment := none,
                appointmentStatus := none, createdAt := 0 }],
    users := [{ id := 1, matchesArr := [], matchCount := [] },
              { id := 2, matchesArr := [], matchCount := [] }] }

/-- User 1 holds a booked entry with partner 2 and a stored appointment. -/
def storeBooked1 : Store :=
  { queue := [{ user := 1, status := "booked", matchedWith := some 2,
                confirmedDate := none, appointment := some 10,
                appointmentStatus := none, createdAt := 0 }],
    users := [{ id := 1, matchesArr := [], matchCount := [] }] }

/-- User 1 holds a waiting entry. -/
def storeWaitingSelf : Store :=
  { queue := [{ user := 1, status := "waiting", matchedWith := none,
                confirmedDate := none, appointment := none,
                appointmentStatus := none, createdAt := 0 }],
    users := [{ id := 1, matchesArr := [], matchCount := [] }] }

/-- The matched entry of user 1 with partner 2, no proposal yet. -/
def entryM1 : QueueEntry :=
  { user := 1, status := "matched", matchedWith := some 2,
    confirmedDate := none, appointment := none,
    appointmentStatus := none, createdAt := 0 }

/-- The matched entry of user 2 with partner 1, with proposed date 42. -/
def entryM2 : QueueEntry :=
  { user := 2, status := "matched", matchedWith := some 1,
    confirmedDate := some 42, appointment := none,
    appointmentStatus := none, createdAt := 0 }

/-- Users 1 and 2 are matched with each other; user 2 already proposed
date 42. -/
def storeNegotiating : Store :=
  { queue := [entryM1, entryM2],
    users := [{ id := 1, matchesArr := [], matchCount := [] },
              { id := 2, matchesArr := [], matchCount := [] }] }

/-- The booked entry of user 1 with partner 2 at date 42. -/
def entryB1 : QueueEntry :=
  { user := 1, status := "booked", matchedWith := some 2,
    confirmedDate := some 42, appointment := some 42,
    appointmentStatus := none, createdAt := 0 }

/-- The booked entry of user 2 with partner 1 at date 42. -/
def entryB2 : QueueEntry :=
  { user := 2, status := "booked", matchedWith := some 1,
    confirmedDate := some 42, appointment := some 42,
    appointmentStatus := none, createdAt := 0 }

/-- Users 1 and 2 hold booked entries referencing each other. -/
def storeBookedPair : Store :=
  { queue := [entryB1, entryB2],
    users := [{ id := 1, matchesArr := [], matchCount := [] },
              { id := 2, matchesArr := [], matchCount := [] }] }

/-- User 1 has match history [3] with matchCount 2 for partner 3, and an
active waiting entry. -/
def storeHistory1 : Store :=
  { queue := [{ user := 1, status := "waiting", matchedWith := none,
                confirmedDate := none, appointment := none,
                appointmentStatus := none, createdAt := 0 }],
    users := [{ id := 1, matchesArr := [3], matchCount := [(3, 2)] }] }

/-! ### Lemmas about the list combinators -/

theorem find?_cons_pos {α : Type} (p : α → Bool) (a : α) (t : List α)
    (h : p a = true) : (a :: t).find? p = some a := by
  simp [List.find?, h]

theorem find?_cons_neg {α : Type} (p : α → Bool) (a : α) (t : List α)
    (h : p a = false) : (a :: t).find? p = t.find? p := by
  simp [List.find?, h]

theorem updateFirst_cons_pos {α : Type} (p : α → Bool) (f : α → α) (a : α)
    (t : List α) (h : p a = true) : updateFirst p f (a :: t) = f a :: t := by
  simp [updateFirst, h]

theorem updateFirst_cons_neg {α : Type} (p : α → Bool) (f : α → α) (a : α)
    (t : List α) (h : p a = false) :
    updateFirst p f (a :: t) = a :: updateFirst p f t := by
  simp [updateFirst, h]

theorem deleteFirst_cons_pos {α : Type} (p : α → Bool) (a : α) (t : List α)
    (h : p a = true) : deleteFirst p (a :: t) = t := by
  simp [deleteFirst, h]

theorem deleteFirst_cons_neg {α : Type} (p : α → Bool) (a : α) (t : List α)
    (h : p a = false) : deleteFirst p (a :: t) = a :: deleteFirst p t := by
  simp [deleteFirst, h]

theorem mem_set_of_get? {α : Type} (l : List α) (j : Nat) (x b : α)
    (h : l.get? j = some b) : x ∈ l.set j x := by
  induction l generalizing j with
  | nil => simp [List.get?] at h
  | cons a t ih =>
    cases j with
    | zero => simp [List.set]
    | succ j' =>
      simp only [List.get?] at h
      simp only [List.set, List.mem_cons]
      exact Or.inr (ih j' h)

theorem mem_updateFirst_of_find? {α : Type} (p : α → Bool) (f : α → α)
    (l : List α) (x : α) (h : l.find? p = some x) : f x ∈ updateFirst p f l := by
  induction l with
  | nil => simp [List.find?] at h
  | cons a t ih =>
    cases hpa : p a with
    | true =>
      rw [find?_cons_pos p a t hpa, Option.some_inj] at h
      subst h
      rw [updateFirst_cons_pos p f a t hpa]
      exact List.mem_cons_self _ _
    | false =>
      rw [find?_cons_neg p a t hpa] at h
      rw [updateFirst_cons_neg p f a t hpa]
      exact List.mem_cons_of_mem a (ih h)

theorem find?_updateFirst_self {α : Type} (p : α → Bool) (f : α → α)
    (l : List α) (x : α) (h : l.find? p = some x) (hfx : p (f x) = true) :
    (updateFirst p f l).find? p = some (f x) := by
  induction l with
  | nil => simp [List.find?] at h
  | cons a t ih =>
    cases hpa : p a with
    | true =>
      rw [find?_cons_pos p a t hpa, Option.some_inj] at h
      subst h
      rw [updateFirst_cons_pos p f a t hpa]
      exact find?_cons_pos p (f a) t hfx
    | false =>
      rw [find?_cons_neg p a t hpa] at h
      rw [updateFirst_cons_neg p f a t hpa, find?_cons_neg p a _ hpa]
      exact ih h

theorem find?_updateFirst_disjoint {α : Type} (p p2 : α → Bool) (f : α → α)
    (l : List α) (h1 : ∀ e, p e = true → p2 e = false)
    (h2 : ∀ e, p e = true → p2 (f e) = false) :
    (updateFirst p f l).find? p2 = l.find? p2 := by
  induction l with
  | nil => rfl
  | cons a t ih =>
    cases hpa : p a with
    | true =>
      rw [updateFirst_cons_pos p f a t hpa,
          find?_cons_neg p2 (f a) t (h2 a hpa),
          find?_cons_neg p2 a t (h1 a hpa)]
    | false =>
      rw [updateFirst_cons_neg p f a t hpa]
      cases hp2 : p2 a with
      | true =>
        rw [find?_cons_pos p2 a _ hp2, find?_cons_pos p2 a t hp2]
      | false =>
        rw [find?_cons_neg p2 a _ hp2, find?_cons_neg p2 a t hp2]
        exact ih

theorem mem_updateFirst_of_mem {α : Type} (p : α → Bool) (f : α → α)
    (l : List α) (x : α) (hx : x ∈ l) (hpx : p x = false) :
    x ∈ updateFirst p f l := by
  induction l with
  | nil => simp at hx
  | cons a t ih =>
    cases hpa : p a with
    | true =>
      rw [updateFirst_cons_pos p f a t hpa]
      rcases List.mem_cons.mp hx with rfl | hxt
      · rw [hpa] at hpx; cases hpx
      · exact List.mem_cons_of_mem _ hxt
    | false =>
      rw [updateFirst_cons_neg p f a t hpa]
      rcases List.mem_cons.mp hx with rfl | hxt
      · exact List.mem_cons_self _ _
      · exact List.mem_cons_of_mem a (ih hxt)

theorem mem_of_mem_updateFirst {α : Type} (p : α → Bool) (f : α → α)
    (l : List α) (x : α) (hx : x ∈ updateFirst p f l) :
    x ∈ l ∨ ∃ y, y ∈ l ∧ p y = true ∧ x = f y := by
  induction l with
  | nil => simp [updateFirst] at hx
  | cons a t ih =>
    cases hpa : p a with
    | true =>
      rw [updateFirst_cons_pos p f a t hpa] at hx
      rcases List.mem_cons.mp hx with rfl | hxt
      · exact Or.inr ⟨a, List.mem_cons_self a t, hpa, rfl⟩
      · exact Or.inl (List.mem_cons_of_mem a hxt)
    | false =>
      rw [updateFirst_cons_neg p f a t hpa] at hx
      rcases List.mem_cons.mp hx with rfl | hxt
      · exact Or.inl (List.mem_cons_self x t)
      · rcases ih hxt with h | ⟨y, hy, hpy, hxy⟩
        · exact Or.inl (List.mem_cons_of_mem a h)
        · exact Or.inr ⟨y, List.mem_cons_of_mem a hy, hpy, hxy⟩

theorem find?_deleteFirst_disjoint {α : Type} (p p2 : α → Bool)
    (l : List α) (h1 : ∀ e, p e = true → p2 e = false) :
    (deleteFirst p l).find? p2 = l.find? p2 := by
  induction l with
  | nil => rfl
  | cons a t ih =>
    cases hpa : p a with
    | true =>
      rw [deleteFirst_cons_pos p a t hpa, find?_cons_neg p2 a t (h1 a hpa)]
    | false =>
      rw [deleteFirst_cons_neg p a t hpa]
      cases hp2 : p2 a with
      | true =>
        rw [find?_cons_pos p2 a _ hp2, find?_cons_pos p2 a t hp2]
      | false =>
        rw [find?_cons_neg p2 a _ hp2, find?_cons_neg p2 a t hp2]
        exact ih

theorem filter_length_deleteFirst {α : Type} (p r : α → Bool) (l : List α)
    (x : α) (h : l.find? p = some x) (himp : ∀ e, p e = true → r e = true) :
    ((deleteFirst p l).filter r).length + 1 = (l.filter r).length := by
  induction l with
  | nil => simp [List.find?] at h
  | cons a t ih =>
    cases hpa : p a with
    | true =>
      rw [deleteFirst_cons_pos p a t hpa,
          List.filter_cons_of_pos (himp a hpa), List.length_cons]
    | false =>
      rw [find?_cons_neg p a t hpa] at h
      rw [deleteFirst_cons_neg p a t hpa]
      cases hra : r a with
      | true =>
        rw [List.filter_cons_of_pos hra, List.filter_cons_of_pos hra,
            List.length_cons, List.length_cons]
        have hlen := ih h
        omega
      | false =>
        rw [List.filter_cons_of_neg (by simp [hra]),
            List.filter_cons_of_neg (by simp [hra])]
        exact ih h

theorem oldestBy_none {α : Type} (p : α → Bool) (key : α → Nat) (l : List α)
    (h : oldestBy p key l = none) : ∀ e ∈ l, p e = false := by
  induction l with
  | nil => intro e he; simp at he
  | cons a t ih =>
    intro e he
    rcases ho : oldestBy p key t with _ | ⟨j, b⟩
    · simp only [oldestBy, ho] at h
      cases hpa : p a with
      | true => rw [hpa] at h; simp at h
      | false =>
        rcases List.mem_cons.mp he with rfl | het
        · exact hpa
        · exact ih ho e het
    · simp only [oldestBy, ho] at h
      by_cases hc : p a = true ∧ key a ≤ key b
      · rw [if_pos hc] at h; cases h
      · rw [if_neg hc] at h; cases h

theorem oldestBy_spec {α : Type} (p : α → Bool) (key : α → Nat) (l : List α)
    (j : Nat) (b : α) (h : oldestBy p key l = some (j, b)) :
    l.get? j = some b ∧ b ∈ l ∧ p b = true ∧
      ∀ e ∈ l, p e = true → key b ≤ key e := by
  induction l generalizing j b with
  | nil => simp [oldestBy] at h
  | cons a t ih =>
    rcases ho : oldestBy p key t with _ | ⟨j0, b0⟩
    · simp only [oldestBy, ho] at h
      cases hpa : p a with
      | true =>
        rw [hpa] at h
        simp only [if_true] at h
        cases h
        refine ⟨rfl, List.mem_cons_self _ _, hpa, ?_⟩
        intro e he hpe
        rcases List.mem_cons.mp he with rfl | het
        · exact Nat.le_refl _
        · rw [oldestBy_none p key t ho e het] at hpe
          cases hpe
      | false =>
        rw [hpa] at h
        simp at h
    · simp only [oldestBy, ho] at h
      obtain ⟨hget0, hmem0, hpb0, hmin0⟩ := ih j0 b0 ho
      by_cases hc : p a = true ∧ key a ≤ key b0
      · rw [if_pos hc] at h
        cases h
        refine ⟨rfl, List.mem_cons_self _ _, hc.1, ?_⟩
        intro e he hpe
        rcases List.mem_cons.mp he with rfl | het
        · exact Nat.le_refl _
        · exact Nat.le_trans hc.2 (hmin0 e het hpe)
      · rw [if_neg hc] at h
        cases h
        refine ⟨hget0, List.mem_cons_of_mem _ hmem0, hpb0, ?_⟩
        intro e he hpe
        rcases List.mem_cons.mp he with hea | het
        · subst hea
          rcases Nat.lt_or_ge (key b) (key e) with hlt | hge
          · exact Nat.le_of_lt hlt
          · exact absurd ⟨hpe, hge⟩ hc
        · exact hmin0 e het hpe

theorem oldestBy_isSome {α : Type} (p : α → Bool) (key : α → Nat) (l : List α)
    (x : α) (hx : x ∈ l) (hpx : p x = true) :
    ∃ j b, oldestBy p key l = some (j, b) := by
  rcases ho : oldestBy p key l with _ | ⟨j, b⟩
  · rw [oldestBy_none p key l ho x hx] at hpx
    cases hpx
  · exact ⟨j, b, rfl⟩

/-! ### Lemmas about the user collection updates -/

theorem findUser_map (g : UserRec → UserRec) (hg : ∀ u, (g u).id = u.id)
    (us : List UserRec) (uid : Nat) :
    findUser uid (us.map g) = (findUser uid us).map g := by
  induction us with
  | nil => rfl
  | cons u t ih =>
    cases hu : ((u.id == uid) : Bool) with
    | true =>
      unfold findUser
      rw [List.map_cons,
          find?_cons_pos (fun v => v.id == uid) (g u) (t.map g)
            (by simpa [hg u] using hu),
          find?_cons_pos (fun v => v.id == uid) u t hu]
      rfl
    | false =>
      unfold findUser
      rw [List.map_cons,
          find?_cons_neg (fun v => v.id == uid) (g u) (t.map g)
            (by simpa [hg u] using hu),
          find?_cons_neg (fun v => v.id == uid) u t hu]
      exact ih

theorem findUser_some_id (uid : Nat) (us : List UserRec) (u : UserRec)
    (h : findUser uid us = some u) : u.id = uid := by
  have hp := List.find?_some h
  simpa using hp

theorem addMatchFun_id (uid pid : Nat) (u : UserRec) :
    (addMatchFun uid pid u).id = u.id := by
  unfold addMatchFun
  split <;> rfl

theorem addMatchFun_matchCount (uid pid : Nat) (u : UserRec) :
    (addMatchFun uid pid u).matchCount = u.matchCount := by
  unfold addMatchFun
  split <;> rfl

theorem addMatchFun_self (uid pid : Nat) (u : UserRec) (h : u.id = uid) :
    addMatchFun uid pid u =
      { u with matchesArr :=
          if u.matchesArr.contains pid then u.matchesArr
          else u.matchesArr ++ [pid] } := by
  unfold addMatchFun
  rw [if_pos (by simp [h])]

theorem addMatchFun_other (uid pid : Nat) (u : UserRec) (h : ¬ u.id = uid) :
    addMatchFun uid pid u = u := by
  unfold addMatchFun
  rw [if_neg (by simp [h])]

theorem mem_addToSet (l : List Nat) (a : Nat) :
    a ∈ (if l.contains a then l else l ++ [a]) := by
  cases hc : l.contains a with
  | true =>
    rw [if_pos rfl]
    simpa using hc
  | false =>
    rw [if_neg (by simp)]
    exact List.mem_append_right l (by simp)

theorem resetFun_id (uid : Nat) (u : UserRec) : (resetFun uid u).id = u.id := by
  unfold resetFun
  split <;> rfl

theorem resetFun_idem (uid : Nat) (u : UserRec) :
    resetFun uid (resetFun uid u) = resetFun uid u := by
  unfold resetFun
  cases h : ((u.id == uid) : Bool) with
  | true => simp [h]
  | false => simp [h]

theorem map_resetFun_idem (uid : Nat) (us : List UserRec) :
    (us.map (resetFun uid)).map (resetFun uid) = us.map (resetFun uid) := by
  induction us with
  | nil => rfl
  | cons u t ih => simp only [List.map_cons, ih, resetFun_idem]

/-! ### The winning claim path of bookCall -/

theorem tryClaim_first_success (fuel uid : Nat) (hist : List Nat)
    (us : List UserRec) (q : List QueueEntry) (j : Nat) (b : QueueEntry)
    (hold : oldestBy (eligibleWaiting uid hist) QueueEntry.createdAt q
      = some (j, b))
    (pu : UserRec) (hpu : findUser b.user us = some pu) :
    tryClaim (fuel + 1) uid hist us q =
      (some (matchedFlip uid b), q.set j (matchedFlip uid b)) := by
  have hclaim : claimOldest (eligibleWaiting uid hist) QueueEntry.createdAt
      (matchedFlip uid) q
      = (some (matchedFlip uid b), q.set j (matchedFlip uid b)) := by
    unfold claimOldest
    rw [hold]
  have huser : (matchedFlip uid b).user = b.user := rfl
  simp only [tryClaim, hclaim, huser, hpu]

theorem bookCall_win (uid now : Nat) (s : Store) (cu : UserRec)
    (hact : s.queue.find? (activePred uid) = none)
    (hcu : findUser uid s.users = some cu)
    (j : Nat) (b : QueueEntry)
    (hold : oldestBy (eligibleWaiting uid cu.matchesArr) QueueEntry.createdAt
      s.queue = some (j, b))
    (pu : UserRec) (hpu : findUser b.user s.users = some pu) :
    bookCall uid now s =
      (BookResult.matchedRes b.user,
       { queue := (s.queue.set j (matchedFlip uid b)
           ++ [mkEntry uid "matched" (some b.user) now])
           ++ [mkEntry b.user "matched" (some uid) now],
         users := addMatch b.user uid (addMatch uid b.user s.users) }) := by
  have h3 : MAX_RETRIES = 2 + 1 := rfl
  have htc := tryClaim_first_success 2 uid cu.matchesArr s.users s.queue j b
    hold pu hpu
  have huser : (matchedFlip uid b).user = b.user := rfl
  simp only [bookCall, hact, hcu, h3, htc, huser]

end Relate15

namespace Relate15

/-! ### Claim C1 -/

/-- Claim C1: every reachable store keeps at most one QueueEntry per user
and every operation preserves this; in particular a winning bookCall leaves
the claimed partner with exactly one entry.  The code violates this: on a
winning claim bookCall flips the partners waiting entry to matched and then
also creates a brand new matched entry for the partner, so the partner ends
the call with two QueueEntries.  Evaluated at the concrete store where user
2 is waiting and user 1 books. -/
theorem bookCall_duplicates_partner_entry :
    (bookCall 1 5 storeWaiting2).1 = BookResult.matchedRes 2 ∧
    ((bookCall 1 5 storeWaiting2).2.queue.filter
      (fun e => e.user == 2)).length = 2 := by
  decide

end Relate15

namespace Relate15

/-! ### Claim C2 -/

/-- Claim C2: when the requester has no active entry and at least one
eligible waiting entry exists (and, as the populate check requires, the
eligible owners exist), the entry claimed by bookCall is the waiting
QueueEntry with the lowest createdAt among entries whose owner is neither
the requester nor in the requesters match history, and the claim sets its
status to matched and its matchedWith to the requester. -/
theorem bookCall_claims_oldest_eligible (uid now : Nat) (s : Store)
    (cu : UserRec)
    (hact : s.queue.find? (activePred uid) = none)
    (hcu : findUser uid s.users = some cu)
    (e0 : QueueEntry) (he0 : e0 ∈ s.queue)
    (helig : eligibleWaiting uid cu.matchesArr e0 = true)
    (hown : ∀ e ∈ s.queue, eligibleWaiting uid cu.matchesArr e = true →
      (findUser e.user s.users).isSome = true) :
    ∃ b ∈ s.queue, eligibleWaiting uid cu.matchesArr b = true ∧
      (∀ e ∈ s.queue, eligibleWaiting uid cu.matchesArr e = true →
        b.createdAt ≤ e.createdAt) ∧
      (bookCall uid now s).1 = BookResult.matchedRes b.user ∧
      matchedFlip uid b ∈ (bookCall uid now s).2.queue := by
  obtain ⟨j, b, hold⟩ :=
    oldestBy_isSome (eligibleWaiting uid cu.matchesArr) QueueEntry.createdAt
      s.queue e0 he0 helig
  obtain ⟨hget, hmem, hpb, hmin⟩ :=
    oldestBy_spec (eligibleWaiting uid cu.matchesArr) QueueEntry.createdAt
      s.queue j b hold
  obtain ⟨pu, hpu⟩ := Option.isSome_iff_exists.mp (hown b hmem hpb)
  have hbk := bookCall_win uid now s cu hact hcu j b hold pu hpu
  refine ⟨b, hmem, hpb, hmin, ?_, ?_⟩
  · rw [hbk]
  · rw [hbk]
    exact List.mem_append_left _
      (List.mem_append_left _
        (mem_set_of_get? s.queue j (matchedFlip uid b) b hget))

/-- Witness for bookCall_claims_oldest_eligible at the store where user 2
is waiting and user 1 with empty history books. -/
theorem bookCall_claims_oldest_eligible_witness :
    ∃ b ∈ storeWaiting2.queue, eligibleWaiting 1 [] b = true ∧
      (∀ e ∈ storeWaiting2.queue, eligibleWaiting 1 [] e = true →
        b.createdAt ≤ e.createdAt) ∧
      (bookCall 1 5 storeWaiting2).1 = BookResult.matchedRes b.user ∧
      matchedFlip 1 b ∈ (bookCall 1 5 storeWaiting2).2.queue :=
  bookCall_claims_oldest_eligible 1 5 storeWaiting2
    { id := 1, matchesArr := [], matchCount := [] } (by decide) (by decide)
    { user := 2, status := "waiting", matchedWith := none,
      confirmedDate := none, appointment := none,
      appointmentStatus := none, createdAt := 0 }
    (by decide) (by decide) (by decide)

end Relate15

namespace Relate15

/-! ### Claim C4 -/

/-- Counterexample to claim C4 as stated: the bookCall pre-check filters
only on status waiting or matched, so a user holding a booked entry is not
rejected with AlreadyActive; the call proceeds, enqueues a new waiting
entry, and leaves the user with two QueueEntries. -/
theorem bookCall_booked_entry_not_blocking :
    (bookCall 1 7 storeBooked1).1 = BookResult.waitingRes ∧
    (bookCall 1 7 storeBooked1).1 ≠ BookResult.alreadyActive ∧
    ((bookCall 1 7 storeBooked1).2.queue.filter
      (fun e => e.user == 1)).length = 2 := by
  decide

/-- Claim C4 (amended): for every bookCall by a user who already has a
QueueEntry with status waiting or matched, the call fails with
AlreadyActive and the store is unchanged; entries with other statuses such
as booked do not block the call, and the error response carries only a
message, not the existing entry status or partner. -/
theorem bookCall_alreadyActive_no_change (uid now : Nat) (s : Store)
    (e : QueueEntry) (he : e ∈ s.queue) (hu : e.user = uid)
    (hs : isActiveStatus e.status = true) :
    (bookCall uid now s).1 = BookResult.alreadyActive ∧
    (bookCall uid now s).2 = s := by
  have hsome : (s.queue.find? (activePred uid)).isSome = true := by
    rw [List.find?_isSome]
    exact ⟨e, he, by simp [activePred, hu, hs]⟩
  obtain ⟨x, hx⟩ := Option.isSome_iff_exists.mp hsome
  constructor
  · simp only [bookCall, hx]
  · simp only [bookCall, hx]

/-- Witness for bookCall_alreadyActive_no_change at the store where user 1
already holds a waiting entry. -/
theorem bookCall_alreadyActive_no_change_witness :
    (bookCall 1 9 storeWaitingSelf).1 = BookResult.alreadyActive ∧
    (bookCall 1 9 storeWaitingSelf).2 = storeWaitingSelf :=
  bookCall_alreadyActive_no_change 1 9 storeWaitingSelf
    { user := 1, status := "waiting", matchedWith := none,
      confirmedDate := none, appointment := none,
      appointmentStatus := none, createdAt := 0 }
    (by decide) (by decide) (by decide)

end Relate15

namespace Relate15

/-! ### Claim C5 -/

theorem eligible_user_ne (uid : Nat) (hist : List Nat) (e : QueueEntry)
    (h : eligibleWaiting uid hist e = true) : e.user ≠ uid := by
  intro hne
  simp only [eligibleWaiting, hne] at h
  simp at h

/-- Counterexample to claim C5 as stated: a winning bookCall adds each user
to the others matches array but never touches matchCount, so matchCount for
the new partner is not one greater than before (it stays zero). -/
theorem bookCall_does_not_increment_matchCount :
    (bookCall 1 5 storeWaiting2).1 = BookResult.matchedRes 2 ∧
    (findUser 1 (bookCall 1 5 storeWaiting2).2.users)
      = some { id := 1, matchesArr := [2], matchCount := [] } ∧
    ¬ ((findUser 1 (bookCall 1 5 storeWaiting2).2.users).map
        (fun u => matchCountFor 2 u.matchCount)
      = (findUser 1 storeWaiting2.users).map
        (fun u => matchCountFor 2 u.matchCount + 1)) := by
  decide

/-- Claim C5 (amended): after a winning bookCall pairing the requester with
partner p, the requester is in the partners matches array and the partner is
in the requesters matches array (addToSet on both sides), while matchCount
is left unchanged for every user. -/
theorem bookCall_win_history_bidirectional (uid now : Nat) (s : Store)
    (cu : UserRec)
    (hact : s.queue.find? (activePred uid) = none)
    (hcu : findUser uid s.users = some cu)
    (e0 : QueueEntry) (he0 : e0 ∈ s.queue)
    (helig : eligibleWaiting uid cu.matchesArr e0 = true)
    (hown : ∀ e ∈ s.queue, eligibleWaiting uid cu.matchesArr e = true →
      (findUser e.user s.users).isSome = true) :
    ∃ p, (bookCall uid now s).1 = BookResult.matchedRes p ∧
      (∃ u2, findUser uid (bookCall uid now s).2.users = some u2 ∧
        p ∈ u2.matchesArr) ∧
      (∃ v2, findUser p (bookCall uid now s).2.users = some v2 ∧
        uid ∈ v2.matchesArr) ∧
      (∀ w, (findUser w (bookCall uid now s).2.users).map UserRec.matchCount
        = (findUser w s.users).map UserRec.matchCount) := by
  obtain ⟨j, b, hold⟩ :=
    oldestBy_isSome (eligibleWaiting uid cu.matchesArr) QueueEntry.createdAt
      s.queue e0 he0 helig
  obtain ⟨hget, hmem, hpb, hmin⟩ :=
    oldestBy_spec (eligibleWaiting uid cu.matchesArr) QueueEntry.createdAt
      s.queue j b hold
  obtain ⟨pu, hpu⟩ := Option.isSome_iff_exists.mp (hown b hmem hpb)
  have hbk := bookCall_win uid now s cu hact hcu j b hold pu hpu
  have hbne : b.user ≠ uid := eligible_user_ne uid cu.matchesArr b hpb
  have hcuid : cu.id = uid := findUser_some_id uid s.users cu hcu
  have hpid : pu.id = b.user := findUser_some_id b.user s.users pu hpu
  have hg1 : ∀ u, (addMatchFun uid b.user u).id = u.id :=
    addMatchFun_id uid b.user
  have hg2 : ∀ u, (addMatchFun b.user uid u).id = u.id :=
    addMatchFun_id b.user uid
  have hres : (bookCall uid now s).1 = BookResult.matchedRes b.user := by
    rw [hbk]
  have husers : (bookCall uid now s).2.users
      = addMatch b.user uid (addMatch uid b.user s.users) := by
    rw [hbk]
  rw [hres, husers]
  have h1 : findUser uid (addMatch uid b.user s.users)
      = some (addMatchFun uid b.user cu) := by
    rw [addMatch, findUser_map _ hg1, hcu]
    rfl
  have h2 : findUser uid (addMatch b.user uid (addMatch uid b.user s.users))
      = some (addMatchFun b.user uid (addMatchFun uid b.user cu)) := by
    rw [addMatch, findUser_map _ hg2, h1]
    rfl
  have h3 : addMatchFun b.user uid (addMatchFun uid b.user cu)
      = addMatchFun uid b.user cu := by
    apply addMatchFun_other
    rw [addMatchFun_id, hcuid]
    exact fun hE => hbne hE.symm
  have h1p : findUser b.user (addMatch uid b.user s.users) = some pu := by
    rw [addMatch, findUser_map _ hg1, hpu]
    show some (addMatchFun uid b.user pu) = some pu
    rw [addMatchFun_other uid b.user pu (by rw [hpid]; exact hbne)]
  have h2p : findUser b.user
      (addMatch b.user uid (addMatch uid b.user s.users))
      = some (addMatchFun b.user uid pu) := by
    rw [addMatch, findUser_map _ hg2, h1p]
    rfl
  refine ⟨b.user, rfl, ?_, ?_, ?_⟩
  · refine ⟨addMatchFun uid b.user cu, ?_, ?_⟩
    · rw [h2, h3]
    · rw [addMatchFun_self uid b.user cu hcuid]
      exact mem_addToSet cu.matchesArr b.user
  · refine ⟨addMatchFun b.user uid pu, h2p, ?_⟩
    rw [addMatchFun_self b.user uid pu hpid]
    exact mem_addToSet pu.matchesArr uid
  · intro w
    rw [addMatch, addMatch, findUser_map _ hg2, findUser_map _ hg1]
    cases findUser w s.users with
    | none => rfl
    | some u => simp [addMatchFun_matchCount]

/-- Witness for bookCall_win_history_bidirectional at the store where user
2 is waiting and user 1 with empty history books. -/
theorem bookCall_win_history_bidirectional_witness :
    ∃ p, (bookCall 1 5 storeWaiting2).1 = BookResult.matchedRes p ∧
      (∃ u2, findUser 1 (bookCall 1 5 storeWaiting2).2.users = some u2 ∧
        p ∈ u2.matchesArr) ∧
      (∃ v2, findUser p (bookCall 1 5 storeWaiting2).2.users = some v2 ∧
        1 ∈ v2.matchesArr) ∧
      (∀ w, (findUser w (bookCall 1 5 storeWaiting2).2.users).map
          UserRec.matchCount
        = (findUser w storeWaiting2.users).map UserRec.matchCount) :=
  bookCall_win_history_bidirectional 1 5 storeWaiting2
    { id := 1, matchesArr := [], matchCount := [] } (by decide) (by decide)
    { user := 2, status := "waiting", matchedWith := none,
      confirmedDate := none, appointment := none,
      appointmentStatus := none, createdAt := 0 }
    (by decide) (by decide) (by decide)

end Relate15

namespace Relate15

/-! ### Claim C3 -/

theorem matchedPred_disjoint (a b : Nat) (hab : a ≠ b) :
    ∀ e2, matchedPred a e2 = true → matchedPred b e2 = false := by
  intro e2 h2
  have h2' : e2.user = a ∧ e2.status = "matched" := by
    simpa [matchedPred] using h2
  simp [matchedPred, h2'.1, hab]

theorem matchedPred_booked_false (d : Int) :
    ∀ (x : Nat) (e2 : QueueEntry), matchedPred x (setBooked d e2) = false := by
  intro x e2
  show (e2.user == x && (("booked" : String) == "matched")) = false
  rw [show (("booked" : String) == "matched") = false from rfl]
  exact Bool.and_false _

/-- Claim C3: the claim says that for a matched pair whose partner already
proposed date d, a proposeOrUpdateDate (confirmDate) call with the same
date books the pair and returns state booked.  The code cannot do this:
the convergence branch saves status booked on the caller document, the
QueueSchema enum validator rejects booked, the save throws and the
transaction aborts with nothing persisted, and the endpoint surfaces an
internal error.  Evaluated at the convergence-ready store: both confirmDate
and updateConfirmedDate abort with the store unchanged, the attempted
booked save fails validation, and no booked entry exists anywhere. -/
theorem confirmDate_convergence_aborts :
    confirmDate 1 42 storeNegotiating
      = (DateResult.internalError, storeNegotiating) ∧
    updateConfirmedDate 1 42 storeNegotiating
      = (DateResult.internalError, storeNegotiating) ∧
    saveValidates (setBooked 42 (setProposed 42 entryM1)) = false ∧
    (∀ e ∈ (confirmDate 1 42 storeNegotiating).2.queue,
      e.status ≠ "booked") := by
  decide

end Relate15

namespace Relate15

/-! ### Claim C6 -/

/-- Counterexample to claim C6 as stated: skipAppointment resets the
partner to idle and clears matchedWith and appointmentStatus, but it does
not clear the proposal field confirmedDate (nor appointment), so a partner
who had proposed a date keeps that residual value. -/
theorem skipAppointment_residual_proposal :
    (skipAppointment 1 storeNegotiating).1 = NegotiationResult.idleRes ∧
    (skipAppointment 1 storeNegotiating).2.queue.find? (fun e => e.user == 2)
      = some { user := 2, status := "idle", matchedWith := none, confirmedDate := some 42, appointment := none, appointmentStatus := none, createdAt := 0 } ∧
    ¬ (∀ e ∈ (skipAppointment 1 storeNegotiating).2.queue,
        e.confirmedDate = none) := by
  decide

/-- Claim C6 (amended): after skipAppointment by a user with a matched
entry and partner b, the caller has no remaining QueueEntry, and the
partners entry is rewritten to status idle with matchedWith and
appointmentStatus cleared, while any proposedDate (confirmedDate) or
appointment value on it is retained; the call returns state idle. -/
theorem skipAppointment_resets_partner (a b : Nat) (s : Store)
    (hab : a ≠ b) (ea : QueueEntry)
    (ha : s.queue.find? (matchedPred a) = some ea)
    (hmw : ea.matchedWith = some b)
    (hcount : (s.queue.filter (fun e => e.user == a)).length = 1)
    (eb : QueueEntry)
    (hb : s.queue.find? (matchedPred b) = some eb) :
    (skipAppointment a s).1 = NegotiationResult.idleRes ∧
    (∀ e ∈ (skipAppointment a s).2.queue, e.user ≠ a) ∧
    { eb with status := "idle", matchedWith := none, appointmentStatus := none } ∈ (skipAppointment a s).2.queue := by
  have hdisj := matchedPred_disjoint a b hab
  have hsk : skipAppointment a s =
      (NegotiationResult.idleRes,
       { s with queue := (updateFirst (matchedPred b) setSkipIdle
          (deleteFirst (matchedPred a) s.queue)) }) := by
    simp only [skipAppointment, ha, hmw]
  rw [hsk]
  refine ⟨rfl, ?_, ?_⟩
  · intro e he
    have himp : ∀ e2, matchedPred a e2 = true → (e2.user == a) = true := by
      intro e2 h2
      have h2' : e2.user = a ∧ e2.status = "matched" := by
        simpa [matchedPred] using h2
      simp [h2'.1]
    have hlen := filter_length_deleteFirst (matchedPred a)
      (fun e2 => e2.user == a) s.queue ea ha himp
    have hzero : ((deleteFirst (matchedPred a) s.queue).filter
        (fun e2 => e2.user == a)).length = 0 := by omega
    have hq1mem : ∀ e2 ∈ deleteFirst (matchedPred a) s.queue, e2.user ≠ a := by
      intro e2 h2
      have hnil := List.length_eq_zero.mp hzero
      have := List.filter_eq_nil_iff.mp hnil e2 h2
      simpa using this
    rcases mem_of_mem_updateFirst (matchedPred b) setSkipIdle _ e he with
      hin | ⟨y, hy, hpy, hey⟩
    · exact hq1mem e hin
    · have : e.user = y.user := by rw [hey]; rfl
      rw [this]
      exact hq1mem y hy
  · have hq1b : (deleteFirst (matchedPred a) s.queue).find? (matchedPred b)
        = some eb := by
      rw [find?_deleteFirst_disjoint (matchedPred a) (matchedPred b) s.queue
          hdisj]
      exact hb
    exact mem_updateFirst_of_find? (matchedPred b) setSkipIdle _ eb hq1b

/-- Witness for skipAppointment_resets_partner at the store where users 1
and 2 are matched and user 2 has proposed date 42. -/
theorem skipAppointment_resets_partner_witness :
    (skipAppointment 1 storeNegotiating).1 = NegotiationResult.idleRes ∧
    (∀ e ∈ (skipAppointment 1 storeNegotiating).2.queue, e.user ≠ 1) ∧
    { entryM2 with status := "idle", matchedWith := none, appointmentStatus := none } ∈ (skipAppointment 1 storeNegotiating).2.queue :=
  skipAppointment_resets_partner 1 2 storeNegotiating (by decide) entryM1
    (by decide) (by decide) (by decide) entryM2 (by decide)

end Relate15

namespace Relate15

/-! ### Claim C7 -/

/-- Claim C7: once a pair is booked no further proposal is accepted: both
confirmDate and updateConfirmedDate look up the caller by status matched
only, so a caller whose sole QueueEntry has status booked gets
NoActiveMatch and the store is unchanged (no status, confirmedAppointment
or booking change). -/
theorem booked_rejects_further_proposals (a : Nat) (d : Int) (s : Store)
    (ea : QueueEntry) (he : ea ∈ s.queue) (hu : ea.user = a)
    (hst : ea.status = "booked")
    (honly : ∀ e ∈ s.queue, e.user = a → e = ea) :
    confirmDate a d s = (DateResult.noActiveMatch, s) ∧
    updateConfirmedDate a d s = (DateResult.noActiveMatch, s) := by
  have hnone : s.queue.find? (matchedPred a) = none := by
    rw [List.find?_eq_none]
    intro x hx hpx
    have hx' : x.user = a ∧ x.status = "matched" := by
      simpa [matchedPred] using hpx
    have hxe : x = ea := honly x hx hx'.1
    rw [hxe, hst] at hx'
    exact absurd hx'.2 (by decide)
  constructor
  · simp only [confirmDate, hnone]
  · simp only [updateConfirmedDate, hnone]

/-- Witness for booked_rejects_further_proposals at the store where users 1
and 2 hold booked entries. -/
theorem booked_rejects_further_proposals_witness :
    confirmDate 1 99 storeBookedPair
      = (DateResult.noActiveMatch, storeBookedPair) ∧
    updateConfirmedDate 1 99 storeBookedPair
      = (DateResult.noActiveMatch, storeBookedPair) :=
  booked_rejects_further_proposals 1 99 storeBookedPair entryB1 (by decide)
    (by decide) (by decide) (by decide)

/-! ### Claim C8 -/

/-- Counterexample to claim C8 as stated: getCurrentMatch queries only
status matched, so a user whose entry is booked with a partner is not given
the partner back; with empty match history the call falls through to
NotFound. -/
theorem getCurrentMatch_ignores_booked :
    (∃ e ∈ storeBookedPair.queue,
      e.user = 1 ∧ e.status = "booked" ∧ e.matchedWith = some 2) ∧
    (findUser 2 storeBookedPair.users).isSome = true ∧
    getCurrentMatch 1 storeBookedPair = MatchResult.notFoundRes := by
  decide

/-- Claim C8 (amended): getCurrentMatch returns the partner of the entry
with status matched (booked entries are not considered) when that partner
document exists; otherwise, with no matched entry, it returns the match
history when non-empty and fails NotFound when empty. -/
theorem getCurrentMatch_cases (uid : Nat) (s : Store) (u : UserRec)
    (hu : findUser uid s.users = some u) :
    (∀ e p, s.queue.find? (matchedPred uid) = some e →
      e.matchedWith = some p → (findUser p s.users).isSome = true →
      getCurrentMatch uid s = MatchResult.partnerRes p) ∧
    (s.queue.find? (matchedPred uid) = none → u.matchesArr ≠ [] →
      getCurrentMatch uid s = MatchResult.historyRes u.matchesArr) ∧
    (s.queue.find? (matchedPred uid) = none → u.matchesArr = [] →
      getCurrentMatch uid s = MatchResult.notFoundRes) := by
  refine ⟨?_, ?_, ?_⟩
  · intro e p hfind hmw hps
    obtain ⟨pu, hpu⟩ := Option.isSome_iff_exists.mp hps
    simp only [getCurrentMatch, hfind, hmw, hpu]
  · intro hfind hne
    have hlen : u.matchesArr.length > 0 :=
      List.length_pos.mpr hne
    simp only [getCurrentMatch, hfind, historyFallback, hu, if_pos hlen]
  · intro hfind hemp
    simp only [getCurrentMatch, hfind, historyFallback, hu, hemp]
    rw [if_neg (by simp)]

/-- Witness for getCurrentMatch_cases: with users 1 and 2 matched, the
partner of the matched entry is returned. -/
theorem getCurrentMatch_cases_witness :
    getCurrentMatch 1 storeNegotiating = MatchResult.partnerRes 2 :=
  (getCurrentMatch_cases 1 storeNegotiating
    { id := 1, matchesArr := [], matchCount := [] } (by decide)).1 entryM1 2
    (by decide) (by decide) (by decide)

end Relate15

namespace Relate15

/-! ### Claim C9 -/

/-- Claim C9: resetMatches sets the users matches and matchCount to empty,
leaves every QueueEntry untouched (the whole queue collection is unchanged,
including any active entry of the caller), leaves every other user
unchanged, and is idempotent on the whole store. -/
theorem resetMatches_spec (uid : Nat) (s : Store) :
    (resetMatches uid s).queue = s.queue ∧
    findUser uid (resetMatches uid s).users
      = (findUser uid s.users).map
          (fun u => { u with matchesArr := ([] : List Nat), matchCount := ([] : List (Nat × Nat)) }) ∧
    (∀ v, v ≠ uid →
      findUser v (resetMatches uid s).users = findUser v s.users) ∧
    resetMatches uid (resetMatches uid s) = resetMatches uid s := by
  refine ⟨rfl, ?_, ?_, ?_⟩
  · show findUser uid (s.users.map (resetFun uid)) = _
    rw [findUser_map (resetFun uid) (resetFun_id uid)]
    cases hfu : findUser uid s.users with
    | none => rfl
    | some u =>
      have hid : u.id = uid := findUser_some_id uid s.users u hfu
      show some (resetFun uid u) = _
      simp only [Option.map]
      rw [resetFun.eq_def, if_pos (by simp [hid])]
  · intro v hv
    show findUser v (s.users.map (resetFun uid)) = _
    rw [findUser_map (resetFun uid) (resetFun_id uid)]
    cases hfu : findUser v s.users with
    | none => rfl
    | some u =>
      have hid : u.id = v := findUser_some_id v s.users u hfu
      show some (resetFun uid u) = some u
      rw [resetFun.eq_def, if_neg (by simp [hid, hv])]
  · show resetMatches uid { s with users := s.users.map (resetFun uid) } = _
    simp only [resetMatches, map_resetFun_idem]

/-- Witness for resetMatches_spec: user 1 with history [3] and an active
waiting entry resets; the queue is unchanged, user 5 is unaffected and a
second reset changes nothing. -/
theorem resetMatches_spec_witness :
    (resetMatches 1 storeHistory1).queue = storeHistory1.queue ∧
    findUser 5 (resetMatches 1 storeHistory1).users
      = findUser 5 storeHistory1.users ∧
    resetMatches 1 (resetMatches 1 storeHistory1)
      = resetMatches 1 storeHistory1 :=
  ⟨(resetMatches_spec 1 storeHistory1).1,
   (resetMatches_spec 1 storeHistory1).2.2.1 5 (by decide),
   (resetMatches_spec 1 storeHistory1).2.2.2⟩

/-! ### Claim C10 -/

/-- Claim C10: the QueueSchema status enum admits only waiting and matched,
so any status value passing the schema validator on a document-level save
is one of the two; yet the negotiation operations attempt to store booked
(setBooked, the document update confirmDate and updateConfirmedDate save on
convergence) and idle (setSkipIdle, the skipAppointment update, which
bypasses validation and therefore really lands in the store), and both
values fail the validator. -/
theorem queueSchema_status_enum_closed :
    (∀ st, validQueueStatus st = true → st = "waiting" ∨ st = "matched") ∧
    validQueueStatus "booked" = false ∧
    validQueueStatus "idle" = false ∧
    (∀ (d : Int) (e : QueueEntry), saveValidates (setBooked d e) = false) ∧
    (∀ e : QueueEntry, validQueueStatus (setSkipIdle e).status = false) ∧
    (∃ e ∈ (skipAppointment 1 storeNegotiating).2.queue,
      e.status = "idle" ∧ validQueueStatus e.status = false) := by
  refine ⟨?_, by decide, by decide, ?_, ?_, by decide⟩
  · intro st h
    simpa [validQueueStatus, queueStatusEnum] using h
  · intro d e
    show validQueueStatus "booked" = false
    decide
  · intro e
    show validQueueStatus "idle" = false
    decide

/-- Witness for queueSchema_status_enum_closed applied to the status value
waiting, which passes the validator. -/
theorem queueSchema_status_enum_closed_witness :
    "waiting" = "waiting" ∨ "waiting" = "matched" :=
  queueSchema_status_enum_closed.1 "waiting" (by decide)

end Relate15
